import Mathlib

/-!
Verification of the design-space-exploration agent
(`src/agent/src/agent/nodes.py`, `graph.py`, `state.py`, and
`src/agent/nodes/component_agent.py`).

The pipeline nodes exchange parsed JSON data with an external
text-generation backend.  JSON values produced by Python's `json.loads`
are modelled by the inductive type `Json` below; numbers are modelled as
rationals (`json.loads` produces ints and floats, which compare and test
equal numerically).  Objects model parsed Python dicts, whose keys are
unique, so association-list lookup is faithful.  A `Json.null` stored in
a state field also models an absent key, which every reader of the state
treats identically to `None` via `dict.get` defaults.
-/

namespace DesignAgent

inductive Json where
  | null : Json
  | bool : Bool → Json
  | num : ℚ → Json
  | str : String → Json
  | arr : List Json → Json
  | obj : List (String × Json) → Json

mutual

/-- Python `==` on two parsed JSON values (structural comparison). -/
def jeq : Json → Json → Bool
  | .null, .null => true
  | .bool a, .bool b => a == b
  | .num a, .num b => a == b
  | .str a, .str b => a == b
  | .arr a, .arr b => jeqList a b
  | .obj a, .obj b => jeqFields a b
  | _, _ => false

def jeqList : List Json → List Json → Bool
  | [], [] => true
  | x :: xs, y :: ys => jeq x y && jeqList xs ys
  | _, _ => false

def jeqFields : List (String × Json) → List (String × Json) → Bool
  | [], [] => true
  | (k, v) :: xs, (k2, v2) :: ys => k == k2 && jeq v v2 && jeqFields xs ys
  | _, _ => false

end

/-- A parsed Python dict (a JSON object), as an association list. -/
abbrev JObj := List (String × Json)

/-- Python `d.get(k)` on a parsed dict: `none` models the absent key. -/
def jget (o : JObj) (k : String) : Option Json :=
  (o.find? fun p => p.1 == k).map fun p => p.2

/-- Python `d.get(k, default)`. -/
def jgetD (o : JObj) (k : String) (d : Json) : Json :=
  (jget o k).getD d

/-- Python truthiness of a parsed JSON value (`bool(v)`). -/
def pyTruthy : Json → Bool
  | .null => false
  | .bool b => b
  | .num q => decide (q ≠ 0)
  | .str s => decide (s ≠ "")
  | .arr l => !l.isEmpty
  | .obj l => !l.isEmpty

mutual

/-- Python `repr()` of a parsed JSON value.  Scalars follow Python exactly
(for numbers, the integer case; a non-integral rational is rendered as a
plain rational, standing in for the float repr); containers follow
Python's bracketed, single-quoted rendering. -/
def pyRepr : Json → String
  | .null => "None"
  | .bool true => "True"
  | .bool false => "False"
  | .num q => if q.den = 1 then toString q.num else toString q
  | .str s => "\x27" ++ s ++ "\x27"
  | .arr l => "[" ++ ", ".intercalate (pyReprList l) ++ "]"
  | .obj l => "\x7b" ++ ", ".intercalate (pyReprFields l) ++ "\x7d"

def pyReprList : List Json → List String
  | [] => []
  | x :: xs => pyRepr x :: pyReprList xs

def pyReprFields : List (String × Json) → List String
  | [] => []
  | (k, v) :: xs => ("\x27" ++ k ++ "\x27: " ++ pyRepr v) :: pyReprFields xs

end

/-- Python `str()` of a parsed JSON value, as interpolated by f-strings. -/
def pyStr : Json → String
  | .str s => s
  | v => pyRepr v

/-- The value of a parsed JSON object, `none` for any other value. -/
def asObj : Json → Option JObj
  | .obj l => some l
  | _ => none

/-- Map a fallible function over a list, failing as soon as one element
fails (the first raise aborts a Python loop). -/
def listMapOpt (f : α → Option β) : List α → Option (List β)
  | [] => some []
  | x :: xs => (f x).bind fun y => (listMapOpt f xs).map fun ys => y :: ys

/-- Iterating a stored value and calling `.get` on each element, as the
nodes' display loops and comprehensions do.  A list yields its elements,
which must all be dicts (`AttributeError` otherwise); empty strings and
empty dicts iterate to nothing; every other value raises (`TypeError`
for non-iterables, `AttributeError` on the first non-dict element).
`none` models the raise. -/
def iterableObjs : Json → Option (List JObj)
  | .arr l => listMapOpt asObj l
  | .str s => if s = "" then some [] else none
  | .obj l => if l.isEmpty then some [] else none
  | _ => none

/-- Python `len()` of a parsed JSON value; `none` models the `TypeError`
raised on values without a length. -/
def jsonLen : Json → Option Nat
  | .arr l => some l.length
  | .obj l => some l.length
  | .str s => some s.length
  | _ => none

/-- True when reading fields of this stored value with `.get` works:
it is a dict, or it is an absent key read with a `{}` default. -/
def dictGetOk : Json → Bool
  | .obj _ => true
  | .null => true
  | _ => false

/-- The run state threaded through the pipeline (state.py `DesignState`).
The write-only `messages` channel is omitted: no node or edge reads it.
`iteration` and `max_iterations` are `Option Int` because every reader
uses `state.get` with defaults 0 and 2 respectively. -/
structure St where
  requirements : Json
  constraints : Json
  candidates : Json
  initial_candidates : Json
  evaluations : Json
  iteration : Option Int
  max_iterations : Option Int
  top_pick : Json
  selection_reasoning : Json
  formatted_output : String

/-- Outcome of a backend call: the call itself can fail with an
exception (network/auth/quota), or return a text reply abstracted by
`α`, the outcome of parsing it. -/
inductive Call (α : Type) where
  | fail : String → Call α
  | reply : α → Call α

/-- Abstraction of parsing a backend reply in the generator, evaluator
and refinement nodes: `json.loads(content)`, and on `JSONDecodeError`
a regex search for the outermost `[...]` slice followed by a second,
unguarded `json.loads`.
* `ok v`: the first parse succeeds with value `v`;
* `bracketed l`: the first parse fails, the regex matches, and the
  second parse succeeds — necessarily with a list, since the slice is
  bracket-delimited;
* `bracketFail`: the first parse fails, the regex matches, but the
  second parse raises an uncaught `JSONDecodeError` (e.g. content
  `"[1,]"`);
* `noStructure`: the first parse fails and the regex finds no match. -/
inductive GenOutcome where
  | ok : Json → GenOutcome
  | bracketed : List Json → GenOutcome
  | bracketFail : GenOutcome
  | noStructure : GenOutcome

/-- Abstraction of parsing the selector's backend reply: as in
`GenOutcome`, but the regex looks for an outermost `{...}` slice, so a
successful second parse necessarily yields a dict. -/
inductive SelOutcome where
  | ok : Json → SelOutcome
  | braced : JObj → SelOutcome
  | bracedFail : SelOutcome
  | noStructure : SelOutcome

/-- The shared defensive-extraction policy of generator, evaluator and
refinement: parse; if the result is a dict containing `key`, unwrap
that field; on a failed first parse, use the bracketed slice if one
parses, raise if the slice does not parse (`none`), and fall back to
`fallback` if no slice is found. -/
def extractList (key : String) (fallback : Json) : GenOutcome → Option Json
  | .ok v =>
      match v with
      | .obj fs =>
          match jget fs key with
          | some w => some w
          | none => some (.obj fs)
      | w => some w
  | .bracketed l => some (.arr l)
  | .bracketFail => none
  | .noStructure => some fallback

/-- True when `seed_generator_node`'s alert-threshold formatting does
not raise: `alert_thresholds['low']` / `['high']` are only read when the
value is a dict, and a `KeyError` aborts the node. -/
def alertObjOk : Json → Bool
  | .obj afs => (jget afs "low").isSome && (jget afs "high").isSome
  | _ => true

/-- Core of `seed_generator_node` (nodes.py): validate the presence of
requirements and constraints (`ValueError` otherwise), read the prompt
fields (requirements/constraints must be dicts for `.get`), call the
backend — unguarded, so a call failure raises — then defensively
extract the candidate list, which the display loop iterates.  Returns
the value stored as `candidates`, or `none` when the node raises. -/
def seed_generator_core (call : Call GenOutcome) (s : St) : Option Json :=
  if pyTruthy s.requirements && pyTruthy s.constraints then
    match s.requirements, s.constraints with
    | .obj reqFs, .obj _ =>
        if alertObjOk (jgetD reqFs "alert_thresholds" .null) then
          match call with
          | .fail _ => none
          | .reply o =>
              (extractList "candidates" (.arr []) o).bind fun v =>
                (iterableObjs v).map fun _ => v
        else none
    | _, _ => none
  else none

/-- `seed_generator_node` as a full-state update: it writes the
`candidates` and `initial_candidates` channels. -/
def seed_generator_node (call : Call GenOutcome) (s : St) : Option St :=
  (seed_generator_core call s).map fun v =>
    { s with candidates := v, initial_candidates := v }

/-- Core of `evaluator_node` (nodes.py): with a falsy candidate list it
short-circuits to an empty evaluation list before any backend call;
otherwise it builds the prompt (requirements read with `.get`), calls
the backend, extracts the evaluation list and iterates it for display.
Returns the stored `evaluations` value paired with the number of
backend calls made, or `none` when the node raises. -/
def evaluator_core (call : Call GenOutcome) (s : St) : Option (Json × Nat) :=
  if pyTruthy s.candidates then
    if dictGetOk s.requirements then
      match call with
      | .fail _ => none
      | .reply o =>
          (extractList "evaluations" (.arr []) o).bind fun v =>
            (iterableObjs v).map fun _ => (v, 1)
    else none
  else some (.arr [], 0)

/-- `evaluator_node` as a full-state update, paired with its backend
call count. -/
def evaluator_node (call : Call GenOutcome) (s : St) : Option (St × Nat) :=
  (evaluator_core call s).map fun p => ({ s with evaluations := p.1 }, p.2)

/-- The aggregate score the refiner sorts by:
`x.get("overall_score", 0)`. -/
def scoreOf (e : JObj) : Json :=
  jgetD e "overall_score" (.num 0)

/-- The sort key as a rational; `none` when the stored score is not a
number, in which case Python's `sorted` raises a `TypeError` comparing
it against the numeric default (non-numeric score values are modelled
as a sort failure). -/
def scoreQ (e : JObj) : Option ℚ :=
  match scoreOf e with
  | .num q => some q
  | _ => none

/-- An evaluation record paired with its numeric sort key. -/
abbrev Scored := ℚ × JObj

/-- Insert into a descending-sorted list, before the first element with
a key not larger than the inserted one — the insertion step of a stable
descending sort, matching `sorted(key=..., reverse=True)`'s documented
behaviour that equal keys keep their original order. -/
def insertDesc (x : Scored) : List Scored → List Scored
  | [] => [x]
  | y :: ys => if y.1 ≤ x.1 then x :: y :: ys else y :: insertDesc x ys

/-- Stable descending sort by key, modelling Python's
`sorted(evaluations, key=lambda x: x.get("overall_score", 0),
reverse=True)`. -/
def sortDesc : List Scored → List Scored
  | [] => []
  | x :: xs => insertDesc x (sortDesc xs)

/-- The refiner's ranked evaluation list (`sorted_evals`); `none` when
a score is non-numeric and the sort raises. -/
def refineRanked (evalObjs : List JObj) : Option (List JObj) :=
  (listMapOpt (fun e => (scoreQ e).map fun q => (q, e)) evalObjs).map fun l =>
    (sortDesc l).map fun p => p.2

/-- The refiner's `top_ids`: `candidate_id` of the first three ranked
evaluations, read with `e["candidate_id"]` — a missing key is a
`KeyError`, modelled by `none`. -/
def refineTopIds (evalObjs : List JObj) : Option (List Json) :=
  (refineRanked evalObjs).bind fun ranked =>
    listMapOpt (fun e => jget e "candidate_id") (ranked.take 3)

/-- The refiner's `top_candidates`: candidates whose `id` is among
`top_ids` (`c.get("id") in top_ids`, comparing with Python `==`). -/
def topCandidates (top_ids : List Json) (candObjs : List JObj) : List JObj :=
  candObjs.filter fun c => top_ids.any fun t => jeq t (jgetD c "id" .null)

/-- Core of `refinement_node` (nodes.py): rank the evaluations, take the
top three ids, gather the matching candidates, build the prompt
(requirements/constraints read with `.get`), call the backend —
unguarded — extract the refined list with the unrefined top candidates
as the no-structure fallback, and take `len()` of the result for the
log message.  Returns the stored `candidates` value, or `none` when the
node raises. -/
def refinement_core (call : Call GenOutcome) (s : St) : Option Json :=
  (iterableObjs s.evaluations).bind fun evalObjs =>
    (refineTopIds evalObjs).bind fun top_ids =>
      (iterableObjs s.candidates).bind fun candObjs =>
        if dictGetOk s.requirements && dictGetOk s.constraints then
          match call with
          | .fail _ => none
          | .reply o =>
              (extractList "candidates"
                  (.arr ((topCandidates top_ids candObjs).map Json.obj)) o).bind
                fun refined =>
                  (jsonLen refined).map fun _ => refined
        else none

/-- `refinement_node` as a full-state update: it writes `candidates`
and, unconditionally on the success path, the iteration counter
incremented by exactly one (`"iteration": iteration + 1` where
`iteration = state.get("iteration", 0)`). -/
def refinement_node (call : Call GenOutcome) (s : St) : Option St :=
  (refinement_core call s).map fun v =>
    { s with candidates := v, iteration := some (s.iteration.getD 0 + 1) }

/-- `should_continue_refining` (nodes.py): the convergence gate. -/
def should_continue_refining (s : St) : String :=
  if s.max_iterations.getD 2 ≤ s.iteration.getD 0 then "select" else "refine"

/-- Python `candidates[0]` on a truthy stored value, as in the
selector's parse-failure fallback; `none` models the raise (`KeyError`
for a dict, `TypeError` for a number). -/
def pyIndexZero : Json → Option Json
  | .arr (x :: _) => some x
  | .str t =>
      match t.toList with
      | c :: _ => some (.str (String.singleton c))
      | [] => none
  | _ => none

/-- The selector's dict-to-text normalization of `selection_reasoning`:
`" ".join(str(value) for value in reasoning.values())`. -/
def joinReasoningParts (fs : JObj) : String :=
  " ".intercalate (fs.map fun p => pyStr p.2)

/-- Core of `selector_node` (nodes.py): call the backend — unguarded —
parse the reply (on failure, search for a `{...}` slice; if none is
found, fall back to a dict picking `candidates[0]` when candidates are
truthy, else `None`, with the placeholder reasoning), require the
result to be a dict (`.get` raises otherwise), and normalize a
dict-valued reasoning to one string.  Returns the stored
`(top_pick, selection_reasoning)` pair, or `none` when the node
raises. -/
def selector_core (call : Call SelOutcome) (s : St) : Option (Json × Json) :=
  match call with
  | .fail _ => none
  | .reply o =>
      (match o with
        | .ok v => some v
        | .braced fs => some (.obj fs)
        | .bracedFail => none
        | .noStructure =>
            if pyTruthy s.candidates then
              (pyIndexZero s.candidates).map fun c =>
                .obj [("top_pick", c),
                      ("selection_reasoning", .str "Unable to parse selection")]
            else
              some (.obj [("top_pick", .null),
                          ("selection_reasoning",
                            .str "Unable to parse selection")])
      ).bind fun result =>
        (asObj result).map fun fs =>
          let reasoning0 := jgetD fs "selection_reasoning" (.str "")
          (jgetD fs "top_pick" .null,
            match reasoning0 with
            | .obj rfs => Json.str (joinReasoningParts rfs)
            | v => v)

/-- `selector_node` as a full-state update: it writes `top_pick` and
`selection_reasoning`. -/
def selector_node (call : Call SelOutcome) (s : St) : Option St :=
  (selector_core call s).map fun p =>
    { s with top_pick := p.1, selection_reasoning := p.2 }

/-- The `"=" * 80` rule line. -/
def hRule : String := String.mk (List.replicate 80 (Char.ofNat 61))

/-- The `"-" * 80` rule line. -/
def dashRule : String := String.mk (List.replicate 80 (Char.ofNat 45))

/-- The formatter's per-candidate evaluation lookup:
`next((e for e in evaluations if e.get("candidate_id") == cid), {})`. -/
def evalFor (evalObjs : List JObj) (cid : Json) : JObj :=
  (evalObjs.find? fun e => jeq (jgetD e "candidate_id" .null) cid).getD []

/-- The formatter's per-candidate score line. -/
def scoreLine (ev : JObj) : String :=
  "      * Score: " ++ pyStr (jgetD ev "overall_score" (.str "N/A")) ++ "/10"

/-- The lines the formatter's candidate loop appends for one candidate:
five field lines (absent fields render as `N/A`), plus the score line
only when a non-empty evaluation record matched (`if eval_data:`). -/
def candidateSection (evalObjs : List JObj) (c : JObj) : List String :=
  let cid := jgetD c "id" .null
  let ev := evalFor evalObjs cid
  ["\n  #" ++ pyStr cid ++ ": " ++ pyStr (jgetD c "microcontroller" (.str "N/A")),
   "      * Sensor: " ++ pyStr (jgetD c "sensor_type" (.str "N/A")),
   "      * ADC: " ++ pyStr (jgetD c "adc_bits" (.str "N/A")) ++ "-bit",
   "      * BLE: " ++ pyStr (jgetD c "ble_module" (.str "N/A")),
   "      * Battery: " ++ pyStr (jgetD c "battery" (.str "N/A"))] ++
  (if ev.isEmpty then [] else [scoreLine ev])

/-- Python `str.split()`: split on whitespace runs, dropping empties. -/
def pyWords (t : String) : List String :=
  (t.split fun c => c.isWhitespace).filter fun w => w ≠ ""

/-- One step of the formatter's justification word-wrap loop. -/
def wrapFold (acc : List String × String) (w : String) : List String × String :=
  if acc.2.length + w.length + 1 > 76 then (acc.1 ++ [acc.2], "    " ++ w)
  else if acc.2.any fun c => !c.isWhitespace then (acc.1, acc.2 ++ " " ++ w)
  else (acc.1, acc.2 ++ w)

/-- The formatter's word-wrapped justification lines. -/
def wrapReasoning (t : String) : List String :=
  let r := (pyWords t).foldl wrapFold ([], "    ")
  if r.2.any fun c => !c.isWhitespace then r.1 ++ [r.2] else r.1

/-- The score-breakdown lines of the top-pick block, emitted only when
a non-empty evaluation record matched the top pick (`if top_pick_eval:`). -/
def scoreBreakdown (ev : JObj) : List String :=
  if ev.isEmpty then [] else
    ["", "  Score Breakdown:",
     "      * Accuracy:    " ++ pyStr (jgetD ev "accuracy_score" (.str "N/A")) ++ "/10",
     "      * Power:       " ++ pyStr (jgetD ev "power_score" (.str "N/A")) ++ "/10",
     "      * Cost:        " ++ pyStr (jgetD ev "cost_score" (.str "N/A")) ++ "/10",
     "      * Reliability: " ++ pyStr (jgetD ev "reliability_score" (.str "N/A")) ++ "/10",
     "      ─────────────────────",
     "      * Overall:     " ++ pyStr (jgetD ev "overall_score" (.str "N/A")) ++ "/10"]

/-- The formatter's top-pick block, emitted when `top_pick` is truthy. -/
def topPickBlock (evalObjs : List JObj) (tp : JObj) (reasoning : String) :
    List String :=
  let ev := evalFor evalObjs (jgetD tp "id" .null)
  ["", hRule, "                                   TOP PICK ", hRule, "",
   "  " ++ pyStr (jgetD tp "microcontroller" (.str "N/A")),
   "      * Sensor Type: " ++ pyStr (jgetD tp "sensor_type" (.str "N/A")),
   "      * ADC Bits: " ++ pyStr (jgetD tp "adc_bits" (.str "N/A")),
   "      * BLE Module: " ++ pyStr (jgetD tp "ble_module" (.str "N/A")),
   "      * Battery: " ++ pyStr (jgetD tp "battery" (.str "N/A"))] ++
  scoreBreakdown ev ++
  ["", "  Why this is the best choice:"] ++ wrapReasoning reasoning

/-- All output lines of `formatter_node` (nodes.py), in order: header,
per-candidate sections, optional top-pick block, footer.  `none` models
a raise: candidates and evaluations must iterate to dicts, and a truthy
non-dict `top_pick` raises at `top_pick.get`. -/
def formatterLines (s : St) : Option (List String) :=
  (iterableObjs s.candidates).bind fun candObjs =>
    (iterableObjs s.evaluations).bind fun evalObjs =>
      let reasoning := match s.selection_reasoning with
        | .str t => t
        | v => pyStr v
      (if pyTruthy s.top_pick then (asObj s.top_pick).map some
       else some none).map fun tpOpt =>
        ["", hRule,
         "              GLUCOSE MONITORING SYSTEM - DESIGN EXPLORATION", hRule,
         "\n  Iterations completed: " ++ toString (s.iteration.getD 0),
         "  Final candidates: " ++ toString candObjs.length, "",
         dashRule, "  FINAL CANDIDATES", dashRule] ++
        (candObjs.map (candidateSection evalObjs)).flatten ++
        (match tpOpt with
         | some tp => topPickBlock evalObjs tp reasoning
         | none => []) ++
        ["", hRule]

/-- `formatter_node` as a full-state update: it writes
`formatted_output`, the joined report text. -/
def formatter_node (s : St) : Option St :=
  (formatterLines s).map fun ls =>
    { s with formatted_output := "\n".intercalate ls }

/-- The alternate `seed_generator_node` of
`src/agent/nodes/component_agent.py` (not wired into the graph):
validates requirements/constraints and four required fields, formats
the alert thresholds, and — unlike the graph's generator — wraps the
backend call in try/except, returning `{"candidates": {"error": msg}}`
on a call failure and the raw reply text otherwise. -/
def component_agent_seed_generator_node (call : Call String) (s : St) :
    Option St :=
  if pyTruthy s.requirements && pyTruthy s.constraints then
    match s.requirements, s.constraints with
    | .obj reqFs, .obj consFs =>
        if pyTruthy (jgetD reqFs "sampling_interval" .null) &&
           pyTruthy (jgetD reqFs "alert_thresholds" .null) &&
           pyTruthy (jgetD reqFs "battery_life" .null) &&
           pyTruthy (jgetD consFs "adc_bits" .null) then
          if alertObjOk (jgetD reqFs "alert_thresholds" .null) then
            match call with
            | .fail msg =>
                some { s with candidates := .obj [("error", .str msg)] }
            | .reply text => some { s with candidates := .str text }
          else none
        else none
    | _, _ => none
  else none

/-- The control-flow positions of the compiled graph (graph.py). -/
inductive Phase where
  | generate | evaluate | refine | select | render | done
deriving DecidableEq

/-- A configuration of the running pipeline. -/
structure Config where
  phase : Phase
  st : St

/-- One transition of the compiled graph (`create_design_agent`):
START→seed_generator→evaluator, the conditional edge on
`should_continue_refining` applied to the evaluator's output state,
refinement→evaluator, selector→formatter→END.  Each backend-calling
step is quantified over an arbitrary call outcome; a node that raises
produces no transition (the run aborts). -/
inductive GStep : Config → Config → Prop where
  | generate (call : Call GenOutcome) (s s' : St) :
      seed_generator_node call s = some s' →
      GStep ⟨.generate, s⟩ ⟨.evaluate, s'⟩
  | evalRefine (call : Call GenOutcome) (s s' : St) (k : Nat) :
      evaluator_node call s = some (s', k) →
      should_continue_refining s' = "refine" →
      GStep ⟨.evaluate, s⟩ ⟨.refine, s'⟩
  | evalSelect (call : Call GenOutcome) (s s' : St) (k : Nat) :
      evaluator_node call s = some (s', k) →
      should_continue_refining s' = "select" →
      GStep ⟨.evaluate, s⟩ ⟨.select, s'⟩
  | refineStep (call : Call GenOutcome) (s s' : St) :
      refinement_node call s = some s' →
      GStep ⟨.refine, s⟩ ⟨.evaluate, s'⟩
  | selectStep (call : Call SelOutcome) (s s' : St) :
      selector_node call s = some s' →
      GStep ⟨.select, s⟩ ⟨.render, s'⟩
  | renderStep (s s' : St) :
      formatter_node s = some s' →
      GStep ⟨.render, s⟩ ⟨.done, s'⟩

/-- 1 when the configuration sits at the refinement step, else 0. -/
def refCount (c : Config) : Nat :=
  match c.phase with
  | .refine => 1
  | _ => 0

/-- Reachability along graph transitions, counting how many times the
run has entered the refinement step. -/
inductive GReach : Config → Nat → Config → Prop where
  | refl (c : Config) : GReach c 0 c
  | tail {c : Config} {n : Nat} {c' c'' : Config} :
      GReach c n c' → GStep c' c'' → GReach c (n + refCount c'') c''

/-- A minimal run state: empty mappings and lists, counter 0, cap 2. -/
def baseSt : St :=
  { requirements := .obj []
    constraints := .obj []
    candidates := .arr []
    initial_candidates := .arr []
    evaluations := .arr []
    iteration := some 0
    max_iterations := some 2
    top_pick := .null
    selection_reasoning := .str ""
    formatted_output := "" }

/-- The requirements mapping of the spec's end-to-end scenario. -/
def scenarioReqFields : JObj :=
  [("sampling_interval", .str "5min"),
   ("alert_thresholds", .obj [("low", .num 70), ("high", .num 180)]),
   ("battery_life", .str ">=24h")]

/-- The constraints mapping of the spec's end-to-end scenario. -/
def scenarioConsFields : JObj :=
  [("adc_bits", .str "\x7b10,12,14,16\x7d")]

/-- The initial state of the spec's end-to-end scenario:
`max_iterations = 0`. -/
def scenarioSt : St :=
  { requirements := .obj scenarioReqFields
    constraints := .obj scenarioConsFields
    candidates := .arr []
    initial_candidates := .arr []
    evaluations := .arr []
    iteration := some 0
    max_iterations := some 0
    top_pick := .null
    selection_reasoning := .str ""
    formatted_output := "" }

/-- A well-formed initial state with the default cap of 2 refinement
rounds. -/
def goodSt : St :=
  { scenarioSt with max_iterations := some 2 }

/-- An evaluation record carrying only an identifier and a score. -/
def mkEval (i q : ℚ) : JObj :=
  [("candidate_id", Json.num i), ("overall_score", Json.num q)]

/-- The spec's ranking example: (id, score) pairs
(1,5), (2,9), (3,7), (4,3). -/
def c3Evals : List JObj := [mkEval 1 5, mkEval 2 9, mkEval 3 7, mkEval 4 3]

end DesignAgent

namespace DesignAgent

/-! Stable-sort lemmas for the refiner's ranking. -/

theorem insertDesc_perm (x : Scored) (l : List Scored) :
    (insertDesc x l).Perm (x :: l) := by
  induction l with
  | nil => exact List.Perm.refl _
  | cons y ys ih =>
      unfold insertDesc
      split
      · exact List.Perm.refl _
      · exact (ih.cons y).trans (List.Perm.swap x y ys)

theorem sortDesc_perm (l : List Scored) : (sortDesc l).Perm l := by
  induction l with
  | nil => exact List.Perm.refl _
  | cons x xs ih => exact (insertDesc_perm x (sortDesc xs)).trans (ih.cons x)

theorem mem_insertDesc {z x : Scored} {l : List Scored}
    (h : z ∈ insertDesc x l) : z = x ∨ z ∈ l := by
  have := (insertDesc_perm x l).mem_iff.mp h
  simpa using this

theorem insertDesc_pairwise {x : Scored} {l : List Scored}
    (h : List.Pairwise (fun a b : Scored => b.1 ≤ a.1) l) :
    List.Pairwise (fun a b : Scored => b.1 ≤ a.1) (insertDesc x l) := by
  induction l with
  | nil => simp [insertDesc]
  | cons y ys ih =>
      rw [List.pairwise_cons] at h
      unfold insertDesc
      split
      · next hle =>
          rw [List.pairwise_cons]
          refine ⟨?_, List.pairwise_cons.mpr h⟩
          intro z hz
          rcases List.mem_cons.mp hz with rfl | hz2
          · exact hle
          · exact (h.1 z hz2).trans hle
      · next hgt =>
          rw [List.pairwise_cons]
          refine ⟨?_, ih h.2⟩
          intro z hz
          rcases mem_insertDesc hz with rfl | hz2
          · exact le_of_lt (lt_of_not_le hgt)
          · exact h.1 z hz2

theorem sortDesc_pairwise (l : List Scored) :
    List.Pairwise (fun a b : Scored => b.1 ≤ a.1) (sortDesc l) := by
  induction l with
  | nil => simp [sortDesc]
  | cons x xs ih => exact insertDesc_pairwise ih

theorem insertDesc_filter (x : Scored) (l : List Scored) (q : ℚ) :
    (insertDesc x l).filter (fun a => decide (a.1 = q)) =
      if x.1 = q then x :: l.filter (fun a => decide (a.1 = q))
      else l.filter fun a => decide (a.1 = q) := by
  induction l with
  | nil => by_cases h : x.1 = q <;> simp [insertDesc, List.filter, h]
  | cons y ys ih =>
      unfold insertDesc
      split
      · next hle =>
          by_cases h : x.1 = q <;> simp [List.filter_cons, h]
      · next hgt =>
          have hxy : x.1 < y.1 := lt_of_not_le hgt
          by_cases hy : y.1 = q
          · have hx : x.1 ≠ q := by
              intro hx
              exact absurd (hx ▸ hxy) (hy ▸ lt_irrefl q)
            simp [List.filter_cons, hy, hx, ih]
          · by_cases hx : x.1 = q <;> simp [List.filter_cons, hy, hx, ih]

theorem sortDesc_filter (l : List Scored) (q : ℚ) :
    (sortDesc l).filter (fun a => decide (a.1 = q)) =
      l.filter fun a => decide (a.1 = q) := by
  induction l with
  | nil => rfl
  | cons x xs ih =>
      unfold sortDesc
      rw [insertDesc_filter]
      by_cases h : x.1 = q <;> simp [List.filter_cons, h, ih]

theorem listMapOpt_map (g : β → Option γ) (f : α → β) (l : List α) :
    listMapOpt g (l.map f) = listMapOpt (fun a => g (f a)) l := by
  induction l with
  | nil => rfl
  | cons x xs ih => simp [listMapOpt, ih]

/-! Shape lemmas: each node is its core's value written into the state
channels it owns, so a successful step changes nothing else. -/

theorem seed_node_shape {call : Call GenOutcome} {s s' : St}
    (h : seed_generator_node call s = some s') :
    ∃ v, seed_generator_core call s = some v ∧
      s' = { s with candidates := v, initial_candidates := v } := by
  unfold seed_generator_node at h
  cases hc : seed_generator_core call s with
  | none => rw [hc] at h; exact absurd h (by simp)
  | some v =>
      rw [hc] at h
      simp only [Option.map_some'] at h
      exact ⟨v, rfl, (Option.some_injective _ h).symm⟩

theorem evaluator_node_shape {call : Call GenOutcome} {s s' : St} {k : Nat}
    (h : evaluator_node call s = some (s', k)) :
    ∃ v, evaluator_core call s = some (v, k) ∧
      s' = { s with evaluations := v } := by
  unfold evaluator_node at h
  cases hc : evaluator_core call s with
  | none => rw [hc] at h; exact absurd h (by simp)
  | some p =>
      rw [hc] at h
      simp only [Option.map_some'] at h
      have h2 := Option.some_injective _ h
      refine ⟨p.1, ?_, ?_⟩
      · rw [← show p.2 = k from congrArg Prod.snd h2]
      · exact (congrArg Prod.fst h2).symm

theorem refinement_node_shape {call : Call GenOutcome} {s s' : St}
    (h : refinement_node call s = some s') :
    ∃ v, refinement_core call s = some v ∧
      s' = { s with candidates := v,
                    iteration := some (s.iteration.getD 0 + 1) } := by
  unfold refinement_node at h
  cases hc : refinement_core call s with
  | none => rw [hc] at h; exact absurd h (by simp)
  | some v =>
      rw [hc] at h
      simp only [Option.map_some'] at h
      exact ⟨v, rfl, (Option.some_injective _ h).symm⟩

theorem selector_node_shape {call : Call SelOutcome} {s s' : St}
    (h : selector_node call s = some s') :
    ∃ p, selector_core call s = some p ∧
      s' = { s with top_pick := p.1, selection_reasoning := p.2 } := by
  unfold selector_node at h
  cases hc : selector_core call s with
  | none => rw [hc] at h; exact absurd h (by simp)
  | some p =>
      rw [hc] at h
      simp only [Option.map_some'] at h
      exact ⟨p, rfl, (Option.some_injective _ h).symm⟩

theorem formatter_node_shape {s s' : St}
    (h : formatter_node s = some s') :
    ∃ ls, formatterLines s = some ls ∧
      s' = { s with formatted_output := "\n".intercalate ls } := by
  unfold formatter_node at h
  cases hc : formatterLines s with
  | none => rw [hc] at h; exact absurd h (by simp)
  | some ls =>
      rw [hc] at h
      simp only [Option.map_some'] at h
      exact ⟨ls, rfl, (Option.some_injective _ h).symm⟩

/-! Counter bookkeeping along graph transitions. -/

/-- The gate answers `"refine"` exactly below the cap. -/
theorem gate_refine_iff (s : St) :
    should_continue_refining s = "refine" ↔
      s.iteration.getD 0 < s.max_iterations.getD 2 := by
  unfold should_continue_refining
  split
  · next h =>
      constructor
      · intro hq; exact absurd hq (by decide)
      · intro hq; exact absurd h (not_le.mpr hq)
  · next h => exact ⟨fun _ => lt_of_not_le h, fun _ => rfl⟩

/-- The iteration counter plus a pending credit for having entered, but
not yet executed, the refinement step. -/
def credit (c : Config) : Int :=
  c.st.iteration.getD 0 + (refCount c : Int)

/-- The configured cap, as each configuration reads it. -/
def maxOf (c : Config) : Int :=
  c.st.max_iterations.getD 2

theorem gstep_invariants {c c' : Config} (h : GStep c c') :
    maxOf c' = maxOf c ∧
    credit c' = credit c + (refCount c' : Int) ∧
    (credit c ≤ maxOf c → credit c' ≤ maxOf c') ∧
    (c.st.iteration.isSome → c'.st.iteration.isSome) := by
  cases h with
  | generate call s s' hn =>
      obtain ⟨v, _, rfl⟩ := seed_node_shape hn
      refine ⟨rfl, ?_, fun hb => ?_, fun hb => hb⟩
      · simp [credit, refCount]
      · simp only [credit, maxOf, refCount] at hb ⊢
        simp at hb ⊢
        omega
  | evalRefine call s s' k hn hg =>
      obtain ⟨v, _, rfl⟩ := evaluator_node_shape hn
      have hlt := (gate_refine_iff _).mp hg
      refine ⟨rfl, ?_, fun _ => ?_, fun hb => hb⟩
      · simp [credit, refCount]
      · simp only [credit, maxOf, refCount] at hlt ⊢
        simp at hlt ⊢
        omega
  | evalSelect call s s' k hn hg =>
      obtain ⟨v, _, rfl⟩ := evaluator_node_shape hn
      refine ⟨rfl, ?_, fun hb => ?_, fun hb => hb⟩
      · simp [credit, refCount]
      · simp only [credit, maxOf, refCount] at hb ⊢
        simp at hb ⊢
        omega
  | refineStep call s s' hn =>
      obtain ⟨v, _, rfl⟩ := refinement_node_shape hn
      refine ⟨rfl, ?_, fun hb => ?_, fun hb => ?_⟩
      · simp [credit, refCount]
      · simp only [credit, maxOf, refCount] at hb ⊢
        simp at hb ⊢
        omega
      · simp
  | selectStep call s s' hn =>
      obtain ⟨p, _, rfl⟩ := selector_node_shape hn
      refine ⟨rfl, ?_, fun hb => ?_, fun hb => hb⟩
      · simp [credit, refCount]
      · simp only [credit, maxOf, refCount] at hb ⊢
        simp at hb ⊢
        omega
  | renderStep s s' hn =>
      obtain ⟨ls, _, rfl⟩ := formatter_node_shape hn
      refine ⟨rfl, ?_, fun hb => ?_, fun hb => hb⟩
      · simp [credit, refCount]
      · simp only [credit, maxOf, refCount] at hb ⊢
        simp at hb ⊢
        omega

theorem greach_invariants {c0 : Config} {n : Nat} {c : Config}
    (h : GReach c0 n c) :
    maxOf c = maxOf c0 ∧
    (n : Int) + credit c0 = credit c ∧
    (credit c0 ≤ maxOf c0 → credit c ≤ maxOf c0) ∧
    (c0.st.iteration.isSome → c.st.iteration.isSome) := by
  induction h with
  | refl => exact ⟨rfl, by simp, fun h => h, fun h => h⟩
  | @tail nm cm2 cm3 hr hs ih =>
      obtain ⟨hmax, hcred, hbound, hsome⟩ := gstep_invariants hs
      refine ⟨hmax.trans ih.1, ?_, fun hb => ?_, fun hb => hsome (ih.2.2.2 hb)⟩
      · rw [hcred, ← ih.2.1]
        push_cast
        ring
      · have h1 : credit cm2 ≤ maxOf cm2 := ih.1.symm ▸ ih.2.2.1 hb
        have h2 := hbound h1
        rw [hmax, ih.1] at h2
        exact h2

theorem greach_done_inv {c0 : Config} {n : Nat} {c : Config}
    (h : GReach c0 n c) (hd : c.phase = Phase.done)
    (h0 : c0.phase = Phase.generate) :
    ∃ n2 sp, GReach c0 n2 ⟨Phase.render, sp⟩ ∧
      formatter_node sp = some c.st := by
  induction h with
  | refl => rw [h0] at hd; exact absurd hd (by decide)
  | @tail nm cm2 cm3 hr hs ih =>
      cases hs with
      | generate call s s2 hn => exact absurd hd (by simp)
      | evalRefine call s s2 k hn hg => exact absurd hd (by simp)
      | evalSelect call s s2 k hn hg => exact absurd hd (by simp)
      | refineStep call s s2 hn => exact absurd hd (by simp)
      | selectStep call s s2 hn => exact absurd hd (by simp)
      | renderStep s s2 hn => exact ⟨nm, s, hr, hn⟩

theorem formatter_iteration_line {s s2 : St}
    (h : formatter_node s = some s2) :
    ∃ ls, s2.formatted_output = "\n".intercalate ls ∧
      ("\n  Iterations completed: " ++ toString (s.iteration.getD 0)) ∈ ls := by
  obtain ⟨ls, hls, rfl⟩ := formatter_node_shape h
  refine ⟨ls, rfl, ?_⟩
  unfold formatterLines at hls
  cases h1 : iterableObjs s.candidates with
  | none => rw [h1] at hls; exact absurd hls (by simp)
  | some candObjs =>
      rw [h1] at hls
      cases h2 : iterableObjs s.evaluations with
      | none => rw [h2] at hls; exact absurd hls (by simp)
      | some evalObjs =>
          rw [h2] at hls
          simp only [Option.bind_some] at hls
          cases h3 : (if pyTruthy s.top_pick then (asObj s.top_pick).map some
              else some none) with
          | none => rw [h3] at hls; exact absurd hls (by simp)
          | some tpOpt =>
              rw [h3] at hls
              simp only [Option.map_some'] at hls
              have := Option.some_injective _ hls
              rw [← this]
              simp

/-! Claim theorems. -/

/-- C1: the convergence gate `should_continue_refining` is a pure,
deterministic function of the iteration counter and the configured
maximum only (no backend call, no side effects); for all k, m ≥ 0 it
answers "refine" exactly when k < m and "select" exactly when k ≥ m. -/
theorem c1_convergence_gate :
    (∀ (k m : Int) (s : St), 0 ≤ k → 0 ≤ m →
        ((should_continue_refining
            { s with iteration := some k, max_iterations := some m } =
              "refine" ↔ k < m) ∧
         (should_continue_refining
            { s with iteration := some k, max_iterations := some m } =
              "select" ↔ m ≤ k))) ∧
    (∀ s t : St, s.iteration = t.iteration →
        s.max_iterations = t.max_iterations →
        should_continue_refining s = should_continue_refining t) := by
  constructor
  · intro k m s hk hm
    unfold should_continue_refining
    simp only [Option.getD_some]
    by_cases h : m ≤ k
    · rw [if_pos h]
      exact ⟨⟨fun hq => absurd hq (by decide), fun hq => absurd h (not_le.mpr hq)⟩,
             ⟨fun _ => h, fun _ => rfl⟩⟩
    · rw [if_neg h]
      exact ⟨⟨fun _ => lt_of_not_le h, fun _ => rfl⟩,
             ⟨fun hq => absurd hq (by decide), fun hq => absurd hq h⟩⟩
  · intro s t h1 h2
    unfold should_continue_refining
    rw [h1, h2]

/-- Witness for C1: at counter 1 and cap 2 the gate answers "refine". -/
theorem c1_convergence_gate_witness :
    (should_continue_refining
        { baseSt with iteration := some 1, max_iterations := some 2 } =
          "refine" ↔ (1 : Int) < 2) ∧
    (should_continue_refining
        { baseSt with iteration := some 1, max_iterations := some 2 } =
          "select" ↔ (2 : Int) ≤ 1) :=
  c1_convergence_gate.1 1 2 baseSt (by decide) (by decide)

/-- C3: the refiner ranks evaluations by aggregate score descending,
stably — the ranked list is a permutation of the input, pairwise
non-increasing in score, and for every score value the records carrying
it keep their original relative order — and selects the first three
identifiers; on the spec example the selected identifiers are 2, 3, 1
in rank order. -/
theorem c3_refiner_ranking :
    (∀ (evalObjs : List JObj) (scored : List Scored),
        listMapOpt (fun e => (scoreQ e).map fun q => (q, e)) evalObjs =
            some scored →
        refineRanked evalObjs = some ((sortDesc scored).map fun p => p.2) ∧
        (sortDesc scored).Perm scored ∧
        List.Pairwise (fun a b : Scored => b.1 ≤ a.1) (sortDesc scored) ∧
        (∀ q : ℚ, (sortDesc scored).filter (fun a => decide (a.1 = q)) =
            scored.filter fun a => decide (a.1 = q)) ∧
        refineTopIds evalObjs =
          listMapOpt (fun p => jget p.2 "candidate_id")
            ((sortDesc scored).take 3)) ∧
    refineTopIds c3Evals = some [Json.num 2, Json.num 3, Json.num 1] := by
  constructor
  · intro evalObjs scored h
    have hr : refineRanked evalObjs =
        some ((sortDesc scored).map fun p => p.2) := by
      unfold refineRanked
      rw [h]
      rfl
    refine ⟨hr, sortDesc_perm scored, sortDesc_pairwise scored,
        fun q => sortDesc_filter scored q, ?_⟩
    unfold refineTopIds
    rw [hr]
    show listMapOpt (fun e => jget e "candidate_id")
        (((sortDesc scored).map fun p => p.2).take 3) = _
    rw [← List.map_take, listMapOpt_map]
  · rfl

/-- Witness for C3 at the spec's example list. -/
theorem c3_refiner_ranking_witness :
    refineRanked c3Evals =
        some [mkEval 2 9, mkEval 3 7, mkEval 1 5, mkEval 4 3] ∧
    refineTopIds c3Evals = some [Json.num 2, Json.num 3, Json.num 1] := by
  have h := c3_refiner_ranking.1 c3Evals
      [((5 : ℚ), mkEval 1 5), ((9 : ℚ), mkEval 2 9),
       ((7 : ℚ), mkEval 3 7), ((3 : ℚ), mkEval 4 3)] rfl
  exact ⟨h.1.trans (by rfl), c3_refiner_ranking.2⟩

/-- C6: on an empty candidate list the evaluator returns an empty
evaluation list with zero backend calls, and its result does not depend
on the backend at all. -/
theorem c6_evaluator_short_circuit :
    ∀ (ca cb : Call GenOutcome) (s : St), s.candidates = Json.arr [] →
      evaluator_node ca s = some ({ s with evaluations := Json.arr [] }, 0) ∧
      evaluator_node ca s = evaluator_node cb s := by
  intro ca cb s h
  have hcore : ∀ cc : Call GenOutcome,
      evaluator_core cc s = some (Json.arr [], 0) := by
    intro cc
    unfold evaluator_core
    rw [h]
    rfl
  constructor
  · unfold evaluator_node
    rw [hcore ca]
    rfl
  · unfold evaluator_node
    rw [hcore ca, hcore cb]

/-- Witness for C6: a failing backend and a null reply give the same
empty evaluation result on the base state. -/
theorem c6_evaluator_short_circuit_witness :
    evaluator_node (Call.fail "down") baseSt =
        some ({ baseSt with evaluations := Json.arr [] }, 0) ∧
    evaluator_node (Call.fail "down") baseSt =
      evaluator_node (Call.reply (GenOutcome.ok Json.null)) baseSt :=
  c6_evaluator_short_circuit (Call.fail "down")
    (Call.reply (GenOutcome.ok Json.null)) baseSt rfl

/-- C4 (amended): whenever the refiner returns, the returned counter is
exactly the incoming counter plus one, and no other pipeline step
writes the counter.  (As stated the claim fails: on some malformed
responses the refiner raises instead of returning — see the
counterexample.) -/
theorem c4_refiner_increment :
    (∀ (call : Call GenOutcome) (s s2 : St),
        refinement_node call s = some s2 →
        s2.iteration = some (s.iteration.getD 0 + 1)) ∧
    (∀ (call : Call GenOutcome) (s s2 : St),
        seed_generator_node call s = some s2 → s2.iteration = s.iteration) ∧
    (∀ (call : Call GenOutcome) (s s2 : St) (k : Nat),
        evaluator_node call s = some (s2, k) → s2.iteration = s.iteration) ∧
    (∀ (call : Call SelOutcome) (s s2 : St),
        selector_node call s = some s2 → s2.iteration = s.iteration) ∧
    (∀ s s2 : St, formatter_node s = some s2 →
        s2.iteration = s.iteration) := by
  refine ⟨?_, ?_, ?_, ?_, ?_⟩
  · intro call s s2 h
    obtain ⟨v, _, rfl⟩ := refinement_node_shape h
    rfl
  · intro call s s2 h
    obtain ⟨v, _, rfl⟩ := seed_node_shape h
    rfl
  · intro call s s2 k h
    obtain ⟨v, _, rfl⟩ := evaluator_node_shape h
    rfl
  · intro call s s2 h
    obtain ⟨p, _, rfl⟩ := selector_node_shape h
    rfl
  · intro s s2 h
    obtain ⟨ls, _, rfl⟩ := formatter_node_shape h
    rfl

/-- Counterexample to C4 as stated: a backend reply whose bracketed
slice itself fails to parse (content such as `"[1,]"`) makes the
refiner raise an uncaught `JSONDecodeError` — it returns no state and
no incremented counter at all. -/
theorem c4_refiner_increment_cex :
    refinement_node (Call.reply GenOutcome.bracketFail) baseSt = none := rfl

/-- The refined base state produced by a successful refinement on an
empty reply list. -/
def c4Result : St :=
  { baseSt with candidates := Json.arr [], iteration := some 1 }

/-- Witness for C4: a concrete successful refinement increments the
counter from 0 to 1. -/
theorem c4_refiner_increment_witness :
    c4Result.iteration = some (baseSt.iteration.getD 0 + 1) :=
  c4_refiner_increment.1 (Call.reply (GenOutcome.ok (Json.arr [])))
    baseSt c4Result rfl

/-- C5 (amended): when the first parse fails and no bracketed structure
is found in the reply, the refiner re-uses the unrefined top-K
candidates unchanged as the new candidate list.  (The claim's "never
empty" part fails: a reply parsing to the empty JSON array replaces the
candidate list with the empty list — see the counterexample.) -/
theorem c5_refiner_fallback :
    ∀ (s : St) (evalObjs candObjs : List JObj) (tids : List Json),
      iterableObjs s.evaluations = some evalObjs →
      refineTopIds evalObjs = some tids →
      iterableObjs s.candidates = some candObjs →
      dictGetOk s.requirements = true →
      dictGetOk s.constraints = true →
      refinement_node (Call.reply GenOutcome.noStructure) s =
        some { s with
          candidates := Json.arr ((topCandidates tids candObjs).map Json.obj),
          iteration := some (s.iteration.getD 0 + 1) } := by
  intro s evalObjs candObjs tids h1 h2 h3 h4 h5
  unfold refinement_node refinement_core
  rw [h1, Option.some_bind, h2, Option.some_bind, h3, Option.some_bind,
      h4, h5]
  rfl

/-- The state after the refiner stores an empty parsed reply list. -/
def c5Result : St :=
  { baseSt with candidates := Json.arr [], iteration := some 1 }

/-- Counterexample to C5 as stated: a reply parsing to `[]` succeeds
(no fallback fires) and leaves the run with an empty candidate list. -/
theorem c5_refiner_fallback_cex :
    refinement_node (Call.reply (GenOutcome.ok (Json.arr []))) baseSt =
        some c5Result ∧
    c5Result.candidates = Json.arr [] := ⟨rfl, rfl⟩

/-- A candidate record with an identifier and one design field. -/
def mkCand (i : ℚ) : JObj :=
  [("id", Json.num i), ("microcontroller", Json.str "nRF52840")]

/-- A mid-run state: four candidates and the example evaluations. -/
def fullSt : St :=
  { goodSt with
    candidates := Json.arr
      [Json.obj (mkCand 1), Json.obj (mkCand 2),
       Json.obj (mkCand 3), Json.obj (mkCand 4)]
    evaluations := Json.arr (c3Evals.map Json.obj) }

/-- Witness for C5: on a no-structure reply, the refiner keeps exactly
the unrefined top-3 candidates (ids 1, 2, 3 — the top scorers — in
candidate-list order) and bumps the counter. -/
theorem c5_refiner_fallback_witness :
    refinement_node (Call.reply GenOutcome.noStructure) fullSt =
      some { fullSt with
        candidates := Json.arr
          [Json.obj (mkCand 1), Json.obj (mkCand 2), Json.obj (mkCand 3)]
        iteration := some 1 } :=
  c5_refiner_fallback fullSt c3Evals
    [mkCand 1, mkCand 2, mkCand 3, mkCand 4]
    [Json.num 2, Json.num 3, Json.num 1] rfl rfl rfl rfl rfl

/-- C7 (amended): when the candidate list is empty and the selector
cannot parse the backend reply (no `{...}` slice found), it selects
nothing, records the placeholder justification, and the run proceeds to
rendering.  (As stated the claim fails: with a parseable reply the
selector stores whatever `top_pick` the backend supplies even though no
candidates exist — see the counterexample.) -/
theorem c7_selector_empty_fallback :
    ∀ s : St, s.candidates = Json.arr [] →
      selector_node (Call.reply SelOutcome.noStructure) s =
        some { s with top_pick := Json.null,
                      selection_reasoning :=
                        Json.str "Unable to parse selection" } ∧
      GStep ⟨Phase.select, s⟩
        ⟨Phase.render,
          { s with top_pick := Json.null,
                   selection_reasoning :=
                     Json.str "Unable to parse selection" }⟩ := by
  intro s h
  have hn : selector_node (Call.reply SelOutcome.noStructure) s =
      some { s with top_pick := Json.null,
                    selection_reasoning :=
                      Json.str "Unable to parse selection" } := by
    unfold selector_node selector_core
    rw [h]
    rfl
  exact ⟨hn, GStep.selectStep _ _ _ hn⟩

/-- A backend reply that names a top pick despite the empty candidate
list. -/
def c7Call : Call SelOutcome :=
  Call.reply (SelOutcome.ok (Json.obj
    [("top_pick", Json.obj [("id", Json.num 1)]),
     ("selection_reasoning", Json.str "because")]))

/-- The selector's output on `c7Call` from the base state. -/
def c7Result : St :=
  { baseSt with top_pick := Json.obj [("id", Json.num 1)],
                selection_reasoning := Json.str "because" }

/-- Counterexample to C7 as stated: with an empty candidate list but a
parseable reply, the selector stores the backend's top pick and its
reasoning, not the placeholder. -/
theorem c7_selector_empty_fallback_cex :
    baseSt.candidates = Json.arr [] ∧
    selector_node c7Call baseSt = some c7Result ∧
    c7Result.top_pick = Json.obj [("id", Json.num 1)] ∧
    c7Result.selection_reasoning = Json.str "because" := ⟨rfl, rfl, rfl, rfl⟩

/-- Witness for C7 at the base state. -/
theorem c7_selector_empty_fallback_witness :
    selector_node (Call.reply SelOutcome.noStructure) baseSt =
      some { baseSt with top_pick := Json.null,
                         selection_reasoning :=
                           Json.str "Unable to parse selection" } ∧
    GStep ⟨Phase.select, baseSt⟩
      ⟨Phase.render,
        { baseSt with top_pick := Json.null,
                      selection_reasoning :=
                        Json.str "Unable to parse selection" }⟩ :=
  c7_selector_empty_fallback baseSt rfl

theorem mem_flatten_split {f : α → List β} {l : List α} {a : α}
    (h : a ∈ l) :
    ∃ p q, (l.map f).flatten = p ++ f a ++ q := by
  obtain ⟨s1, t1, rfl⟩ := List.append_of_mem h
  refine ⟨(s1.map f).flatten, (t1.map f).flatten, ?_⟩
  simp [List.append_assoc]

/-- C8 (amended): the renderer emits a section for every candidate —
five field lines with `N/A` substituted for absent candidate fields,
never skipped and never raising — and appends a score line only when a
non-empty evaluation record matches the candidate's identifier; a
matching record without a score renders `Score: N/A/10`, while a
candidate with no matching record gets no score line at all (see the
counterexample to the claim as stated). -/
theorem c8_renderer_sections :
    (∀ (evalObjs : List JObj) (c : JObj),
        (candidateSection evalObjs c).length =
          (if (evalFor evalObjs (jgetD c "id" .null)).isEmpty then 5
           else 6) ∧
        (candidateSection evalObjs c).take 5 =
          ["\n  #" ++ pyStr (jgetD c "id" .null) ++ ": " ++
              pyStr (jgetD c "microcontroller" (.str "N/A")),
           "      * Sensor: " ++ pyStr (jgetD c "sensor_type" (.str "N/A")),
           "      * ADC: " ++ pyStr (jgetD c "adc_bits" (.str "N/A")) ++
              "-bit",
           "      * BLE: " ++ pyStr (jgetD c "ble_module" (.str "N/A")),
           "      * Battery: " ++ pyStr (jgetD c "battery" (.str "N/A"))]) ∧
    (∀ ev : JObj, jget ev "overall_score" = none →
        scoreLine ev = "      * Score: N/A/10") ∧
    (∀ (s : St) (candObjs evalObjs : List JObj) (ls : List String),
        iterableObjs s.candidates = some candObjs →
        iterableObjs s.evaluations = some evalObjs →
        formatterLines s = some ls →
        ∀ c ∈ candObjs,
          ∃ p q, ls = p ++ candidateSection evalObjs c ++ q) ∧
    (∀ (s : St) (candObjs evalObjs : List JObj),
        iterableObjs s.candidates = some candObjs →
        iterableObjs s.evaluations = some evalObjs →
        pyTruthy s.top_pick = false →
        (formatter_node s).isSome = true) := by
  refine ⟨?_, ?_, ?_, ?_⟩
  · intro evalObjs c
    by_cases h : (evalFor evalObjs (jgetD c "id" .null)).isEmpty <;>
      simp [candidateSection, h]
  · intro ev h
    simp [scoreLine, jgetD, h, pyStr]
  · intro s candObjs evalObjs ls h1 h2 hls c hc
    unfold formatterLines at hls
    rw [h1, Option.some_bind, h2, Option.some_bind] at hls
    cases h3 : (if pyTruthy s.top_pick then (asObj s.top_pick).map some
        else some none) with
    | none => rw [h3] at hls; exact absurd hls (by simp)
    | some tpOpt =>
        rw [h3] at hls
        simp only [Option.map_some'] at hls
        have hlseq := Option.some_injective _ hls
        obtain ⟨p1, q1, hsplit⟩ :=
          mem_flatten_split (f := candidateSection evalObjs) hc
        cases tpOpt with
        | none =>
            refine ⟨["", hRule,
                "              GLUCOSE MONITORING SYSTEM - DESIGN EXPLORATION",
                hRule,
                "\n  Iterations completed: " ++ toString (s.iteration.getD 0),
                "  Final candidates: " ++ toString candObjs.length, "",
                dashRule, "  FINAL CANDIDATES", dashRule] ++ p1,
              q1 ++ ["", hRule], ?_⟩
            subst hlseq
            simp only [hsplit, List.append_assoc, List.nil_append]
        | some tp =>
            refine ⟨["", hRule,
                "              GLUCOSE MONITORING SYSTEM - DESIGN EXPLORATION",
                hRule,
                "\n  Iterations completed: " ++ toString (s.iteration.getD 0),
                "  Final candidates: " ++ toString candObjs.length, "",
                dashRule, "  FINAL CANDIDATES", dashRule] ++ p1,
              q1 ++
                topPickBlock evalObjs tp
                  (match s.selection_reasoning with
                    | Json.str t => t
                    | v => pyStr v) ++ ["", hRule], ?_⟩
            subst hlseq
            simp only [hsplit, List.append_assoc]
  · intro s candObjs evalObjs h1 h2 h3
    unfold formatter_node formatterLines
    rw [h1, Option.some_bind, h2, Option.some_bind, h3]
    simp

/-- A candidate with an identifier only. -/
def c8Cand : JObj := [("id", Json.num 1)]

/-- Counterexample to C8 as stated: with no evaluation record matching
identifier 1, the candidate's section carries no score line at all —
the missing score is not rendered as an `N/A` placeholder line. -/
theorem c8_renderer_sections_cex :
    (evalFor [] (jgetD c8Cand "id" .null)).isEmpty = true ∧
    candidateSection [] c8Cand =
      ["\n  #1: N/A", "      * Sensor: N/A", "      * ADC: N/A-bit",
       "      * BLE: N/A", "      * Battery: N/A"] := ⟨rfl, rfl⟩

/-- Witness for C8: concrete section shape, `N/A` score rendering, and
a raise-free formatter run. -/
theorem c8_renderer_sections_witness :
    (candidateSection c3Evals (mkCand 1)).length =
      (if (evalFor c3Evals (jgetD (mkCand 1) "id" .null)).isEmpty then 5
       else 6) ∧
    scoreLine [("candidate_id", Json.num 9)] = "      * Score: N/A/10" ∧
    (formatter_node fullSt).isSome = true :=
  ⟨(c8_renderer_sections.1 c3Evals (mkCand 1)).1,
   c8_renderer_sections.2.1 [("candidate_id", Json.num 9)] rfl,
   c8_renderer_sections.2.2.2 fullSt
     [mkCand 1, mkCand 2, mkCand 3, mkCand 4] c3Evals rfl rfl rfl⟩

/-- C9 (amended): for any backend reply, the generator either raises or
stores the defensively-extracted value unchanged — also as
`initial_candidates` — and stores the empty list when no structure is
found; it performs no validation of identifier uniqueness or range (see
the counterexample to the claim as stated). -/
theorem c9_generator_passthrough :
    ∀ (o : GenOutcome) (s s2 : St),
      seed_generator_node (Call.reply o) s = some s2 →
      extractList "candidates" (Json.arr []) o = some s2.candidates ∧
      s2.initial_candidates = s2.candidates ∧
      (o = GenOutcome.noStructure → s2.candidates = Json.arr []) := by
  intro o s s2 h
  obtain ⟨v, hc, rfl⟩ := seed_node_shape h
  unfold seed_generator_core at hc
  split at hc
  · split at hc
    · split at hc
      · simp only [Option.bind_eq_some, Option.map_eq_some'] at hc
        obtain ⟨w, hw, ws, hws, hwv⟩ := hc
        subst hwv
        refine ⟨hw, rfl, fun ho => ?_⟩
        subst ho
        exact (Option.some_injective _ hw).symm
      · exact absurd hc (by simp)
    · exact absurd hc (by simp)
  · exact absurd hc (by simp)

/-- A backend reply proposing a candidate with identifier 99. -/
def c9Call : Call GenOutcome :=
  Call.reply (GenOutcome.ok (Json.arr [Json.obj [("id", Json.num 99)]]))

/-- The generator's output on `c9Call`. -/
def c9Result : St :=
  { goodSt with
    candidates := Json.arr [Json.obj [("id", Json.num 99)]]
    initial_candidates := Json.arr [Json.obj [("id", Json.num 99)]] }

/-- Counterexample to C9 as stated: on valid requirements and
constraints the generator returns a candidate whose identifier 99 lies
outside the expected range [1, 5] — no validation occurs. -/
theorem c9_generator_passthrough_cex :
    seed_generator_node c9Call goodSt = some c9Result ∧
    c9Result.candidates = Json.arr [Json.obj [("id", Json.num 99)]] :=
  ⟨rfl, rfl⟩

/-- The generator's output on an unparseable reply. -/
def c9Empty : St :=
  { goodSt with candidates := Json.arr [], initial_candidates := Json.arr [] }

/-- Witness for C9: the no-structure reply yields the empty candidate
list, stored unchanged in both channels. -/
theorem c9_generator_passthrough_witness :
    extractList "candidates" (Json.arr []) GenOutcome.noStructure =
        some c9Empty.candidates ∧
    c9Empty.initial_candidates = c9Empty.candidates ∧
    (GenOutcome.noStructure = GenOutcome.noStructure →
      c9Empty.candidates = Json.arr []) :=
  c9_generator_passthrough GenOutcome.noStructure goodSt c9Empty rfl

/-- C10 (amended): a backend call failure raises out of every node the
compiled graph actually uses — including its generator — and ends the
run; only the alternate generator in `component_agent.py`, which the
graph does not use, catches the failure and returns the structured
value `{"candidates": {"error": msg}}`. -/
theorem c10_backend_call_failure :
    ∀ (msg : String) (s : St),
      seed_generator_node (Call.fail msg) s = none ∧
      (pyTruthy s.candidates = true →
        evaluator_node (Call.fail msg) s = none) ∧
      refinement_node (Call.fail msg) s = none ∧
      selector_node (Call.fail msg) s = none ∧
      (∀ (reqFs consFs : JObj),
        s.requirements = Json.obj reqFs →
        s.constraints = Json.obj consFs →
        pyTruthy (jgetD reqFs "sampling_interval" .null) = true →
        pyTruthy (jgetD reqFs "alert_thresholds" .null) = true →
        pyTruthy (jgetD reqFs "battery_life" .null) = true →
        pyTruthy (jgetD consFs "adc_bits" .null) = true →
        alertObjOk (jgetD reqFs "alert_thresholds" .null) = true →
        component_agent_seed_generator_node (Call.fail msg) s =
          some { s with candidates := Json.obj [("error", Json.str msg)] }) := by
  intro msg s
  refine ⟨?_, fun hcand => ?_, ?_, ?_, ?_⟩
  · have hcore : seed_generator_core (Call.fail msg) s = none := by
      unfold seed_generator_core
      split
      · split
        · split
          · rfl
          · rfl
        · rfl
      · rfl
    unfold seed_generator_node
    rw [hcore]
    rfl
  · have hcore : evaluator_core (Call.fail msg) s = none := by
      unfold evaluator_core
      rw [hcand]
      split
      · split
        · rfl
        · rfl
      · next hfalse => exact absurd rfl hfalse
    unfold evaluator_node
    rw [hcore]
    rfl
  · have hcore : refinement_core (Call.fail msg) s = none := by
      unfold refinement_core
      cases h1 : iterableObjs s.evaluations with
      | none => rfl
      | some a =>
          rw [Option.some_bind]
          cases h2 : refineTopIds a with
          | none => rfl
          | some b =>
              rw [Option.some_bind]
              cases h3 : iterableObjs s.candidates with
              | none => rfl
              | some d =>
                  rw [Option.some_bind]
                  split
                  · rfl
                  · rfl
    unfold refinement_node
    rw [hcore]
    rfl
  · rfl
  · intro reqFs consFs h1 h2 h5 h6 h7 h8 h9
    unfold component_agent_seed_generator_node
    by_cases hr : reqFs = []
    · subst hr
      exact absurd h5 (by simp [jgetD, jget, pyTruthy])
    · by_cases hcs : consFs = []
      · subst hcs
        exact absurd h8 (by simp [jgetD, jget, pyTruthy])
      · have hpr : pyTruthy (Json.obj reqFs) = true := by
          simp [pyTruthy, List.isEmpty_iff, hr]
        have hpc : pyTruthy (Json.obj consFs) = true := by
          simp [pyTruthy, List.isEmpty_iff, hcs]
        rw [h1, h2]
        simp [hpr, hpc, h5, h6, h7, h8, h9]

/-- Counterexample to C10 as stated: in the generator the compiled
graph actually runs, a backend call failure raises — the run does not
terminate with a structured error value. -/
theorem c10_backend_call_failure_cex :
    seed_generator_node (Call.fail "connection error") goodSt = none := rfl

/-- Witness for C10: concrete failure behaviour on the good state, and
the alternate generator's structured error value. -/
theorem c10_backend_call_failure_witness :
    seed_generator_node (Call.fail "boom") goodSt = none ∧
    component_agent_seed_generator_node (Call.fail "boom") goodSt =
      some { goodSt with
             candidates := Json.obj [("error", Json.str "boom")] } :=
  ⟨(c10_backend_call_failure "boom" goodSt).1,
   (c10_backend_call_failure "boom" goodSt).2.2.2.2
     scenarioReqFields scenarioConsFields rfl rfl rfl rfl rfl rfl rfl⟩

/-- The state after the scenario run's selector step. -/
def c2Sel : St :=
  { scenarioSt with top_pick := Json.null,
                    selection_reasoning :=
                      Json.str "Unable to parse selection" }

/-- The final state of the scenario run. -/
def c2Final : St := (formatter_node c2Sel).getD c2Sel

/-- C2: starting from counter 0 with cap m ≥ 0, every run enters the
refinement step at most m times; in the spec's end-to-end scenario with
`max_iterations = 0`, every run performs zero refinement rounds, any
completed run reports `Iterations completed: 0`, and a completed
generate→evaluate→select→render run exists. -/
theorem c2_refinement_bound :
    (∀ (m : Int) (s0 : St) (n : Nat) (c : Config),
        0 ≤ m → s0.iteration = some 0 → s0.max_iterations = some m →
        GReach ⟨Phase.generate, s0⟩ n c → (n : Int) ≤ m) ∧
    (∀ (n : Nat) (c : Config),
        GReach ⟨Phase.generate, scenarioSt⟩ n c →
          n = 0 ∧
          (c.phase = Phase.done →
            c.st.iteration = some 0 ∧
            ∃ ls, c.st.formatted_output = "\n".intercalate ls ∧
              "\n  Iterations completed: 0" ∈ ls)) ∧
    (∃ s : St, GReach ⟨Phase.generate, scenarioSt⟩ 0 ⟨Phase.done, s⟩) := by
  refine ⟨?_, ?_, ?_⟩
  · intro m s0 n c hm h0 hmax hr
    obtain ⟨hmaxeq, hcred, hbound, _⟩ := greach_invariants hr
    have hc0 : credit ⟨Phase.generate, s0⟩ = 0 := by
      simp [credit, refCount, h0]
    have hm0 : maxOf ⟨Phase.generate, s0⟩ = m := by
      simp [maxOf, hmax]
    have hb := hbound (by rw [hc0, hm0]; exact hm)
    rw [hc0] at hcred
    rw [hm0] at hb
    omega
  · intro n c hr
    obtain ⟨hmaxeq, hcred, hbound, hsome⟩ := greach_invariants hr
    have hc0 : credit ⟨Phase.generate, scenarioSt⟩ = 0 := rfl
    have hm0 : maxOf ⟨Phase.generate, scenarioSt⟩ = 0 := rfl
    have hb := hbound (le_of_eq (hc0.trans hm0.symm))
    rw [hm0] at hb
    rw [hc0] at hcred
    have hn0 : n = 0 := by omega
    refine ⟨hn0, fun hdone => ?_⟩
    have hiter : c.st.iteration = some 0 := by
      have hs := hsome rfl
      have hcc : credit c = 0 := by omega
      have hrc : refCount c = 0 := by
        simp [refCount, hdone]
      unfold credit at hcc
      rw [hrc] at hcc
      obtain ⟨i, hi⟩ := Option.isSome_iff_exists.mp hs
      rw [hi] at hcc ⊢
      simp only [Option.getD_some] at hcc
      simp at hcc
      rw [hcc]
    refine ⟨hiter, ?_⟩
    obtain ⟨n2, sp, hr2, hfmt⟩ := greach_done_inv hr hdone rfl
    obtain ⟨hmax2, hcred2, hbound2, hsome2⟩ := greach_invariants hr2
    have hb2 := hbound2 (le_of_eq (hc0.trans hm0.symm))
    rw [hm0] at hb2
    rw [hc0] at hcred2
    have hsp : sp.iteration = some 0 := by
      have hs2 := hsome2 rfl
      have hcc2 : credit ⟨Phase.render, sp⟩ = 0 := by omega
      have hrc2 : refCount ⟨Phase.render, sp⟩ = 0 := rfl
      unfold credit at hcc2
      rw [hrc2] at hcc2
      obtain ⟨i, hi⟩ := Option.isSome_iff_exists.mp hs2
      simp only at hcc2 hi
      rw [hi] at hcc2 ⊢
      simp only [Option.getD_some] at hcc2
      simp at hcc2
      rw [hcc2]
    obtain ⟨ls, hls1, hmem⟩ := formatter_iteration_line hfmt
    have hline : ("\n  Iterations completed: " ++
        toString (sp.iteration.getD 0)) = "\n  Iterations completed: 0" := by
      rw [hsp]
      rfl
    exact ⟨ls, hls1, hline ▸ hmem⟩
  · refine ⟨c2Final, ?_⟩
    have t1 : GStep ⟨Phase.generate, scenarioSt⟩ ⟨Phase.evaluate, scenarioSt⟩ :=
      GStep.generate (Call.reply GenOutcome.noStructure) _ _ rfl
    have t2 : GStep ⟨Phase.evaluate, scenarioSt⟩ ⟨Phase.select, scenarioSt⟩ :=
      GStep.evalSelect (Call.fail "unused") _ _ 0 rfl rfl
    have t3 : GStep ⟨Phase.select, scenarioSt⟩ ⟨Phase.render, c2Sel⟩ :=
      GStep.selectStep (Call.reply SelOutcome.noStructure) _ _ rfl
    have t4 : GStep ⟨Phase.render, c2Sel⟩ ⟨Phase.done, c2Final⟩ :=
      GStep.renderStep _ _ rfl
    exact GReach.tail (GReach.tail (GReach.tail (GReach.tail
      (GReach.refl ⟨Phase.generate, scenarioSt⟩) t1) t2) t3) t4

/-- Witness for C2: a trivial reach instantiates the bound at cap 2,
and the completed scenario run exists. -/
theorem c2_refinement_bound_witness :
    ((0 : Nat) : Int) ≤ 2 ∧
    (∃ s : St, GReach ⟨Phase.generate, scenarioSt⟩ 0 ⟨Phase.done, s⟩) :=
  ⟨c2_refinement_bound.1 2 goodSt 0 ⟨Phase.generate, goodSt⟩ (by decide)
      rfl rfl (GReach.refl _),
   c2_refinement_bound.2.2⟩

end DesignAgent
